import Mathlib

/-!
Verification of the CANSAME5x driver (src/src/CANSAME5x.cpp) against its
natural-language specification.

The development shallowly embeds the driver code in Lean:

* the bit-timing calculator `compute_nbtp` (source lines 100-115), with the
  unsigned 32-bit arithmetic of the C source made explicit through `% 4294967296`
  at every operation that can overflow or underflow, and with the bit-field
  truncation of the `CAN_NBTP_Type` register fields (per the device header the
  fields are NTSEG2:7 bits, NTSEG1:8 bits, NBRP:9 bits, NSJW:7 bits);
* the critical-section primitives `cpu_irq_enter_critical` and
  `cpu_irq_leave_critical` (lines 34-64);
* the receive path `parsePacket` (lines 291-326);
* the transmit path `endPacket` (lines 250-289);
* the filter installers `filter` and `filterExtended` (lines 347-376);
* the activation path `begin` (lines 128-236), as a trace of hardware effects.

Definitions prefixed `spec_` follow the wording of the specification document
and exist only to be compared with the code-derived definitions.
-/

/-- Source macro `DIV_ROUND(a, b) = ((a) + (b) / 2) / (b)`, evaluated on
`uint32_t` operands: the intermediate sum wraps at `2 ^ 32`. -/
def DIV_ROUND (a b : Nat) : Nat := ((a + b / 2) % 4294967296) / b

/-- Source macro `DIV_ROUND_UP(a, b) = ((a) + (b) - 1) / (b)`, evaluated on
`uint32_t` operands: the intermediate sum wraps at `2 ^ 32`. -/
def DIV_ROUND_UP (a b : Nat) : Nat := ((a + b - 1) % 4294967296) / b

/-- `uint32_t` subtraction `a - b` (two-for-one complement wraparound), for
operands below `2 ^ 32`. -/
def sub32 (a b : Nat) : Nat := (a + 4294967296 - b) % 4294967296

/-- `uint32_t` multiplication `a * b` with wraparound. -/
def mul32 (a b : Nat) : Nat := (a * b) % 4294967296

/-- Source line 102: `uint32_t clocks_per_bit = DIV_ROUND(can_frequency, baudrate);`
with the clock frequency kept as a parameter `f` (the source reads the external
board constant `VARIANT_GCLK1_FREQ` here; the spec treats the clock as the
first argument of `compute`). -/
def clocks_per_bit (f b : Nat) : Nat := DIV_ROUND f b

/-- Source line 103: `uint32_t clocks_to_sample = DIV_ROUND(clocks_per_bit * 7, 8);` -/
def clocks_to_sample (f b : Nat) : Nat := DIV_ROUND (mul32 (clocks_per_bit f b) 7) 8

/-- Source line 104: `uint32_t clocks_after_sample = clocks_per_bit - clocks_to_sample;` -/
def clocks_after_sample (f b : Nat) : Nat :=
  sub32 (clocks_per_bit f b) (clocks_to_sample f b)

/-- Source lines 105-106:
`uint32_t divisor = max(DIV_ROUND_UP(clocks_to_sample, 256), DIV_ROUND_UP(clocks_after_sample, 128));` -/
def divisor (f b : Nat) : Nat :=
  max (DIV_ROUND_UP (clocks_to_sample f b) 256) (DIV_ROUND_UP (clocks_after_sample f b) 128)

/-- The `CAN_NBTP_Type` register image written by `compute_nbtp`.  Per the
device header the bit fields are: NSJW bits 31:25 (7 bits), NBRP bits 24:16
(9 bits), NTSEG1 bits 15:8 (8 bits), NTSEG2 bits 6:0 (7 bits); a store into a
field keeps only that many low bits. -/
structure CAN_NBTP where
  NTSEG1 : Nat
  NTSEG2 : Nat
  NBRP : Nat
  NSJW : Nat
deriving DecidableEq

/-- Source lines 100-115, `bool compute_nbtp(uint32_t baudrate, CAN_NBTP_Type &result)`,
with the clock frequency `f` as an explicit first parameter.  `none` models the
`return false` path (no result produced); `some` models `return true` with the
four register fields written, each truncated to its bit width. -/
def compute_nbtp (f b : Nat) : Option CAN_NBTP :=
  if 32 < divisor f b then none
  else some
    { NTSEG1 := sub32 (DIV_ROUND (clocks_to_sample f b) (divisor f b)) 2 % 256
      NTSEG2 := sub32 (DIV_ROUND (clocks_after_sample f b) (divisor f b)) 1 % 128
      NBRP := sub32 (divisor f b) 1 % 512
      NSJW := DIV_ROUND (clocks_after_sample f b) (mul32 (divisor f b) 4) % 128 }

/-! Spec-side model: the algorithm of spec section 4.1, on unbounded
nonnegative integers, with round-half-up rounding and with the derived
segment values as (possibly negative) integers. -/

/-- Modelled from the spec: round-half-up of the fraction `a / b` on
nonnegative integers, `rhu a b = floor(a / b + 1 / 2)`. -/
def rhu (a b : Nat) : Nat := (2 * a + b) / (2 * b)

/-- Modelled from the spec: `clocks_per_bit = round(clock_hz / baud_rate)`. -/
def spec_clocks_per_bit (clock baud : Nat) : Nat := rhu clock baud

/-- Modelled from the spec: `clocks_to_sample = round(clocks_per_bit * 7 / 8)`. -/
def spec_clocks_to_sample (clock baud : Nat) : Nat :=
  rhu (spec_clocks_per_bit clock baud * 7) 8

/-- Modelled from the spec: `clocks_after_sample = clocks_per_bit - clocks_to_sample`. -/
def spec_clocks_after_sample (clock baud : Nat) : Nat :=
  spec_clocks_per_bit clock baud - spec_clocks_to_sample clock baud

/-- Ceiling division on nonnegative integers (the ceiling-divide of the spec). -/
def ceilDiv (a b : Nat) : Nat := (a + b - 1) / b

/-- Modelled from the spec: divisor validity, `clocks_to_sample / d <= 256` and
`clocks_after_sample / d <= 128`, both ceiling-divided. -/
def validDivisor (cts cas d : Nat) : Prop :=
  ceilDiv cts d ≤ 256 ∧ ceilDiv cas d ≤ 128

instance (cts cas d : Nat) : Decidable (validDivisor cts cas d) :=
  inferInstanceAs (Decidable (_ ∧ _))

/-- Modelled from the spec: the smallest positive integer divisor satisfying
`validDivisor` (shown least by `spec_least_divisor_valid` and
`spec_least_divisor_le` below). -/
def spec_least_divisor (cts cas : Nat) : Nat :=
  max 1 (max (ceilDiv cts 256) (ceilDiv cas 128))

/-- The timing parameters of the spec algorithm, as unbounded integers (the
segment lengths may be negative when the bit time is very short). -/
structure SpecTiming where
  segment1_length : Int
  segment2_length : Int
  prescaler : Int
  sync_jump_width : Int
deriving DecidableEq

/-- Modelled from the spec, section 4.1: the full algorithm
`compute(clock_hz, baud_rate) -> TimingParameters | Unachievable`. -/
def spec_compute (clock baud : Nat) : Option SpecTiming :=
  let cts := spec_clocks_to_sample clock baud
  let cas := spec_clocks_after_sample clock baud
  let d := spec_least_divisor cts cas
  if 32 < d then none
  else some
    { segment1_length := (rhu cts d : Int) - 2
      segment2_length := (rhu cas d : Int) - 1
      prescaler := (d : Int) - 1
      sync_jump_width := (rhu cas (d * 4) : Int) }

/-- Read the hardware register image as spec-level timing parameters. -/
def nbtpToSpec (r : CAN_NBTP) : SpecTiming :=
  { segment1_length := r.NTSEG1
    segment2_length := r.NTSEG2
    prescaler := r.NBRP
    sync_jump_width := r.NSJW }

/-! Basic arithmetic lemmas shared by the timing proofs. -/

/-- `(2 * m + 1) / (2 * n) = m / n` for positive `n`: adding a half to the
numerator of a fraction with even denominator never crosses an integer. -/
lemma two_mul_add_one_div (m n : Nat) (hn : 0 < n) : (2 * m + 1) / (2 * n) = m / n := by
  obtain ⟨q, r, hr, rfl⟩ : ∃ q r, r < n ∧ m = n * q + r :=
    ⟨m / n, m % n, Nat.mod_lt m hn, (Nat.div_add_mod m n).symm⟩
  rw [show 2 * (n * q + r) + 1 = (2 * r + 1) + (2 * n) * q by ring,
    Nat.add_mul_div_left _ _ (by omega : 0 < 2 * n),
    Nat.div_eq_of_lt (by omega : 2 * r + 1 < 2 * n),
    show n * q + r = r + n * q by ring,
    Nat.add_mul_div_left _ _ hn, Nat.div_eq_of_lt hr]

/-- The C expression `(a + b / 2) / b` computes round-half-up `rhu a b`,
for every `a b` (both sides are `0` when `b = 0`). -/
lemma add_half_div_eq_rhu (a b : Nat) : (a + b / 2) / b = rhu a b := by
  unfold rhu
  rcases Nat.eq_zero_or_pos b with hb | hb
  · simp [hb]
  rcases Nat.even_or_odd b with ⟨c, hc⟩ | ⟨c, hc⟩
  · subst hc
    have hc0 : 0 < c := by omega
    rw [show (c + c) / 2 = c by omega,
      show 2 * a + (c + c) = 2 * (a + c) by ring,
      Nat.mul_div_mul_left (a + c) (c + c) (by omega : 0 < 2)]
  · subst hc
    rw [show (2 * c + 1) / 2 = c by omega,
      show 2 * a + (2 * c + 1) = 2 * (a + c) + 1 by ring,
      two_mul_add_one_div (a + c) (2 * c + 1) (by omega)]

lemma rhu_zero_right (a : Nat) : rhu a 0 = 0 := by simp [rhu]

/-- `rhu a d ≤ k` whenever `a ≤ k * d` (`d` positive). -/
lemma rhu_le_of_le (a d k : Nat) (hd : 0 < d) (h : a ≤ k * d) : rhu a d ≤ k := by
  unfold rhu
  have h1 : 2 * a + d ≤ (2 * k + 1) * d := by nlinarith
  calc (2 * a + d) / (2 * d) ≤ ((2 * k + 1) * d) / (2 * d) := Nat.div_le_div_right h1
    _ = (d * (2 * k + 1)) / (d * 2) := by ring_nf
    _ = (2 * k + 1) / 2 := Nat.mul_div_mul_left _ _ hd
    _ = k := by omega

/-- The sync-jump-width value never exceeds the post-sample segment value:
`rhu a (4 * d) ≤ rhu a d`. -/
lemma rhu_four_mul_le (a d : Nat) (hd : 0 < d) : rhu a (4 * d) ≤ rhu a d := by
  unfold rhu
  have h2 := Nat.div_add_mod (2 * a + d) (2 * d)
  have h3 : (2 * a + d) % (2 * d) < 2 * d := Nat.mod_lt _ (by omega)
  set q := (2 * a + d) / (2 * d) with hq
  have h5 : 2 * a + d < 2 * d * (q + 1) := by nlinarith
  have h6 : 2 * a + 4 * d < (q + 1) * (2 * (4 * d)) := by nlinarith
  have h7 : (2 * a + 4 * d) / (2 * (4 * d)) < q + 1 :=
    (Nat.div_lt_iff_lt_mul (by omega : 0 < 2 * (4 * d))).mpr h6
  omega

/-- `ceilDiv a d ≤ c ↔ a ≤ c * d` for positive `d`. -/
lemma ceilDiv_le_iff (a c d : Nat) (hd : 0 < d) : ceilDiv a d ≤ c ↔ a ≤ c * d := by
  unfold ceilDiv
  rw [Nat.div_le_iff_le_mul_add_pred hd, Nat.mul_comm c d]
  omega

/-- `spec_least_divisor` is a valid divisor. -/
lemma spec_least_divisor_valid (cts cas : Nat) :
    validDivisor cts cas (spec_least_divisor cts cas) := by
  unfold validDivisor spec_least_divisor
  set d := max 1 (max (ceilDiv cts 256) (ceilDiv cas 128)) with hd
  have hd1 : 0 < d := le_max_left _ _
  have h1 : ceilDiv cts 256 ≤ d := le_trans (le_max_left _ _) (le_max_right _ _)
  have h2 : ceilDiv cas 128 ≤ d := le_trans (le_max_right _ _) (le_max_right _ _)
  rw [ceilDiv_le_iff _ _ _ (by norm_num)] at h1
  rw [ceilDiv_le_iff _ _ _ (by norm_num)] at h2
  constructor
  · rw [ceilDiv_le_iff _ _ _ hd1]; nlinarith
  · rw [ceilDiv_le_iff _ _ _ hd1]; nlinarith

/-- `spec_least_divisor` is below every valid positive divisor, so it is the
smallest valid divisor. -/
lemma spec_least_divisor_le (cts cas d : Nat) (hd : 0 < d)
    (h : validDivisor cts cas d) : spec_least_divisor cts cas ≤ d := by
  obtain ⟨h1, h2⟩ := h
  rw [ceilDiv_le_iff _ _ _ hd] at h1 h2
  unfold spec_least_divisor
  have ha : ceilDiv cts 256 ≤ d := by
    rw [ceilDiv_le_iff _ _ _ (by norm_num)]; nlinarith
  have hb : ceilDiv cas 128 ≤ d := by
    rw [ceilDiv_le_iff _ _ _ (by norm_num)]; nlinarith
  omega

example : compute_nbtp 48000000 500000 = some ⟨82, 11, 0, 3⟩ := by decide
example : spec_compute 48000000 500000 = some ⟨82, 11, 0, 3⟩ := by decide

/-! Bounds on the intermediate `uint32_t` values of `compute_nbtp`. -/

lemma clocks_per_bit_lt (f b : Nat) : clocks_per_bit f b < 4294967296 := by
  unfold clocks_per_bit DIV_ROUND
  exact lt_of_le_of_lt (Nat.div_le_self _ _) (Nat.mod_lt _ (by norm_num))

/-- The sampled portion of the bit, as computed, never exceeds `(2^32 - 1) / 8`. -/
lemma clocks_to_sample_le (f b : Nat) : clocks_to_sample f b ≤ 536870911 := by
  unfold clocks_to_sample DIV_ROUND
  have h : (mul32 (clocks_per_bit f b) 7 + 8 / 2) % 4294967296 < 4294967296 :=
    Nat.mod_lt _ (by norm_num)
  omega

/-- The sampled portion never exceeds the whole bit, even under wraparound. -/
lemma clocks_to_sample_le_cpb (f b : Nat) : clocks_to_sample f b ≤ clocks_per_bit f b := by
  unfold clocks_to_sample DIV_ROUND mul32
  set c := clocks_per_bit f b with hc
  have h1 : (c * 7 % 4294967296 + 8 / 2) % 4294967296 ≤ c * 7 + 4 := by
    have ha := Nat.mod_le (c * 7) 4294967296
    have hb := Nat.mod_le (c * 7 % 4294967296 + 8 / 2) 4294967296
    omega
  have h2 : (c * 7 % 4294967296 + 8 / 2) % 4294967296 / 8 ≤ (c * 7 + 4) / 8 :=
    Nat.div_le_div_right h1
  have h3 : (c * 7 + 4) / 8 ≤ c := by omega
  exact le_trans h2 h3

/-- The wrapped subtraction computing `clocks_after_sample` is in fact exact. -/
lemma cas_eq_sub (f b : Nat) :
    clocks_after_sample f b = clocks_per_bit f b - clocks_to_sample f b := by
  unfold clocks_after_sample sub32
  have h1 := clocks_per_bit_lt f b
  have h2 := clocks_to_sample_le_cpb f b
  omega

/-- The post-sample count plus 127 never wraps: the ceiling-divide in the
`divisor` computation is exact. -/
lemma clocks_after_sample_add_127_lt (f b : Nat) :
    clocks_after_sample f b + 127 < 4294967296 := by
  rw [cas_eq_sub]
  have h1 := clocks_per_bit_lt f b
  by_cases hcase : clocks_per_bit f b ≤ 4294967168
  · have := Nat.sub_le (clocks_per_bit f b) (clocks_to_sample f b)
    omega
  · push_neg at hcase
    have hbig : 536870801 ≤ clocks_to_sample f b := by
      unfold clocks_to_sample DIV_ROUND mul32
      set c := clocks_per_bit f b with hc
      have hX : c * 7 % 4294967296 = c * 7 - 6 * 4294967296 := by omega
      rw [hX, Nat.mod_eq_of_lt (by omega)]
      omega
    omega

/-- When the bit is so long that `clocks_per_bit * 7` wraps around (or would
reach `2^32 - 4`), the computed `divisor` always exceeds 32 and `compute_nbtp`
fails. -/
lemma divisor_big (f b : Nat) (h : 613566756 ≤ clocks_per_bit f b) :
    32 < divisor f b := by
  have h1 := clocks_to_sample_le f b
  have h2 := clocks_to_sample_le_cpb f b
  have h3 := clocks_after_sample_add_127_lt f b
  have h4 := cas_eq_sub f b
  unfold divisor DIV_ROUND_UP
  rw [lt_max_iff]
  right
  rw [Nat.mod_eq_of_lt (by omega : clocks_after_sample f b + 128 - 1 < 4294967296)]
  omega

lemma compute_nbtp_eq_none_iff (f b : Nat) :
    compute_nbtp f b = none ↔ 32 < divisor f b := by
  unfold compute_nbtp
  split <;> simp_all

/-- Without 32-bit overflow in the sum `f + b / 2`, the computed
`clocks_per_bit` is the round-half-up value of the spec. -/
lemma cpb_eq_spec (f b : Nat) (hno : f + b / 2 < 4294967296) :
    clocks_per_bit f b = spec_clocks_per_bit f b := by
  unfold clocks_per_bit DIV_ROUND spec_clocks_per_bit
  rw [Nat.mod_eq_of_lt hno, add_half_div_eq_rhu]

/-- In the non-overflowing regime all four intermediate values of
`compute_nbtp` agree with the spec algorithm. -/
lemma no_overflow_eq (f b : Nat) (hno : f + b / 2 < 4294967296)
    (hsmall : clocks_per_bit f b ≤ 613566755) :
    clocks_to_sample f b = spec_clocks_to_sample f b ∧
    clocks_after_sample f b = spec_clocks_after_sample f b ∧
    divisor f b = max (ceilDiv (spec_clocks_to_sample f b) 256)
      (ceilDiv (spec_clocks_after_sample f b) 128) := by
  have hcpb := cpb_eq_spec f b hno
  have h2 : clocks_to_sample f b = spec_clocks_to_sample f b := by
    unfold clocks_to_sample DIV_ROUND mul32 spec_clocks_to_sample
    rw [← hcpb]
    rw [Nat.mod_eq_of_lt (by omega : clocks_per_bit f b * 7 < 4294967296),
      Nat.mod_eq_of_lt (by omega : clocks_per_bit f b * 7 + 8 / 2 < 4294967296),
      add_half_div_eq_rhu]
  have hle : clocks_to_sample f b ≤ clocks_per_bit f b := clocks_to_sample_le_cpb f b
  have h3 : clocks_after_sample f b = spec_clocks_after_sample f b := by
    unfold clocks_after_sample sub32 spec_clocks_after_sample
    rw [← hcpb, ← h2]
    omega
  refine ⟨h2, h3, ?_⟩
  unfold divisor DIV_ROUND_UP ceilDiv
  rw [← h2, ← h3]
  have hcas : clocks_after_sample f b ≤ clocks_per_bit f b := by
    unfold clocks_after_sample sub32
    have := clocks_per_bit_lt f b
    omega
  congr 1
  · rw [Nat.mod_eq_of_lt (by omega)]
  · rw [Nat.mod_eq_of_lt (by omega)]

/-- The success branch of `spec_compute`, written out. -/
lemma spec_compute_eq_some (clock baud : Nat)
    (h : spec_least_divisor (spec_clocks_to_sample clock baud)
      (spec_clocks_after_sample clock baud) ≤ 32) :
    spec_compute clock baud = some
      { segment1_length := (rhu (spec_clocks_to_sample clock baud)
          (spec_least_divisor (spec_clocks_to_sample clock baud)
            (spec_clocks_after_sample clock baud)) : Int) - 2
        segment2_length := (rhu (spec_clocks_after_sample clock baud)
          (spec_least_divisor (spec_clocks_to_sample clock baud)
            (spec_clocks_after_sample clock baud)) : Int) - 1
        prescaler := (spec_least_divisor (spec_clocks_to_sample clock baud)
          (spec_clocks_after_sample clock baud) : Int) - 1
        sync_jump_width := (rhu (spec_clocks_after_sample clock baud)
          (spec_least_divisor (spec_clocks_to_sample clock baud)
            (spec_clocks_after_sample clock baud) * 4) : Int) } := by
  simp only [spec_compute]
  rw [if_neg (by omega)]

/-- In the no-wrap regime, with the prescaler in range and neither segment
subtraction underflowing, the four register fields written by `compute_nbtp`
agree (as integers) with the spec values. -/
lemma compute_fields (cts cas D : Nat) (hD1 : 1 ≤ D) (hD32 : D ≤ 32)
    (hcts256 : cts ≤ D * 256) (hcas128 : cas ≤ D * 128)
    (h1 : 2 ≤ rhu cts D) (h2 : 1 ≤ rhu cas D) :
    ((sub32 (DIV_ROUND cts D) 2 % 256 : Nat) : Int) = (rhu cts D : Int) - 2 ∧
    ((sub32 (DIV_ROUND cas D) 1 % 128 : Nat) : Int) = (rhu cas D : Int) - 1 ∧
    ((sub32 D 1 % 512 : Nat) : Int) = (D : Int) - 1 ∧
    ((DIV_ROUND cas (mul32 D 4) % 128 : Nat) : Int) = (rhu cas (D * 4) : Int) := by
  have hq1eq : DIV_ROUND cts D = rhu cts D := by
    unfold DIV_ROUND
    rw [Nat.mod_eq_of_lt (by omega), add_half_div_eq_rhu]
  have hq2eq : DIV_ROUND cas D = rhu cas D := by
    unfold DIV_ROUND
    rw [Nat.mod_eq_of_lt (by omega), add_half_div_eq_rhu]
  have hq1le : rhu cts D ≤ 256 :=
    rhu_le_of_le cts D 256 hD1 (by rw [Nat.mul_comm]; exact hcts256)
  have hq2le : rhu cas D ≤ 128 :=
    rhu_le_of_le cas D 128 hD1 (by rw [Nat.mul_comm]; exact hcas128)
  have hq3eq : DIV_ROUND cas (mul32 D 4) = rhu cas (D * 4) := by
    unfold DIV_ROUND mul32
    rw [Nat.mod_eq_of_lt (by omega : D * 4 < 4294967296),
      Nat.mod_eq_of_lt (by omega : cas + D * 4 / 2 < 4294967296),
      add_half_div_eq_rhu]
  have hq3le : rhu cas (D * 4) ≤ 32 := by
    refine rhu_le_of_le cas (D * 4) 32 (by omega) ?_
    calc cas ≤ D * 128 := hcas128
      _ = 32 * (D * 4) := by ring
  refine ⟨?_, ?_, ?_, ?_⟩
  · rw [hq1eq]; unfold sub32; omega
  · rw [hq2eq]; unfold sub32; omega
  · unfold sub32; omega
  · rw [hq3eq]; omega

/-- Were the computed `divisor` zero, both sampled counts would be zero and the
spec-side round of `clocks_to_sample` over the least divisor could not reach 2. -/
lemma divisor_pos (f b : Nat) (hno : f + b / 2 < 4294967296)
    (hsmall : clocks_per_bit f b ≤ 613566755)
    (h1 : 2 ≤ rhu (spec_clocks_to_sample f b)
      (spec_least_divisor (spec_clocks_to_sample f b) (spec_clocks_after_sample f b))) :
    1 ≤ divisor f b := by
  obtain ⟨h2, h3, h4⟩ := no_overflow_eq f b hno hsmall
  by_contra h0
  push_neg at h0
  have hd0 : divisor f b = 0 := by omega
  rw [hd0] at h4
  obtain ⟨ha, hb⟩ := Nat.max_eq_zero_iff.mp h4.symm
  have hcts0 : spec_clocks_to_sample f b = 0 := by unfold ceilDiv at ha; omega
  have hcas0 : spec_clocks_after_sample f b = 0 := by unfold ceilDiv at hb; omega
  rw [hcts0, hcas0] at h1
  exact absurd h1 (by decide)

/-- In the no-wrap regime the least valid divisor of the spec is the computed
`divisor`, as long as the latter is nonzero. -/
lemma spec_least_eq_divisor (f b : Nat) (hno : f + b / 2 < 4294967296)
    (hsmall : clocks_per_bit f b ≤ 613566755) (hDpos : 1 ≤ divisor f b) :
    spec_least_divisor (spec_clocks_to_sample f b) (spec_clocks_after_sample f b) =
      divisor f b := by
  obtain ⟨h2, h3, h4⟩ := no_overflow_eq f b hno hsmall
  unfold spec_least_divisor
  rw [← h4]
  exact max_eq_right hDpos

/-- C1 (amended): whenever `compute_nbtp` succeeds, the 32-bit sum
`clock_hz + baud_rate / 2` does not overflow, and neither segment subtraction
underflows (`round(clocks_to_sample / divisor) >= 2` and
`round(clocks_after_sample / divisor) >= 1`), the four returned register
fields are exactly the values of the spec algorithm: `segment1_length =
round(clocks_to_sample / divisor) - 2`, `segment2_length =
round(clocks_after_sample / divisor) - 1`, `prescaler = divisor - 1` and
`sync_jump_width = round(clocks_after_sample / (divisor * 4))`, with `divisor`
the smallest valid divisor of the spec. -/
theorem compute_nbtp_matches_spec (f b : Nat) (hno : f + b / 2 < 4294967296)
    (r : CAN_NBTP) (hr : compute_nbtp f b = some r)
    (h1 : 2 ≤ rhu (spec_clocks_to_sample f b)
      (spec_least_divisor (spec_clocks_to_sample f b) (spec_clocks_after_sample f b)))
    (h2 : 1 ≤ rhu (spec_clocks_after_sample f b)
      (spec_least_divisor (spec_clocks_to_sample f b) (spec_clocks_after_sample f b))) :
    spec_compute f b = some (nbtpToSpec r) := by
  have hsome : ¬ 32 < divisor f b := by
    intro hgt
    rw [(compute_nbtp_eq_none_iff f b).mpr hgt] at hr
    exact Option.noConfusion hr
  have hsmall : clocks_per_bit f b ≤ 613566755 := by
    by_contra hbig
    push_neg at hbig
    exact hsome (divisor_big f b (by omega))
  obtain ⟨hc2, hc3, hc4⟩ := no_overflow_eq f b hno hsmall
  have hDpos := divisor_pos f b hno hsmall h1
  have hsl := spec_least_eq_divisor f b hno hsmall hDpos
  rw [hsl] at h1 h2
  have hle1 : ceilDiv (spec_clocks_to_sample f b) 256 ≤ divisor f b := by
    rw [hc4]; exact le_max_left _ _
  have hle2 : ceilDiv (spec_clocks_after_sample f b) 128 ≤ divisor f b := by
    rw [hc4]; exact le_max_right _ _
  have hcts256 := (ceilDiv_le_iff _ _ _ (by norm_num : (0:Nat) < 256)).mp hle1
  have hcas128 := (ceilDiv_le_iff _ _ _ (by norm_num : (0:Nat) < 128)).mp hle2
  obtain ⟨e1, e2, e3, e4⟩ := compute_fields (spec_clocks_to_sample f b)
    (spec_clocks_after_sample f b) (divisor f b) hDpos (by omega) hcts256 hcas128 h1 h2
  unfold compute_nbtp at hr
  rw [if_neg hsome] at hr
  have hrr := Option.some.inj hr
  subst hrr
  rw [spec_compute_eq_some f b (by omega), hsl]
  simp only [nbtpToSpec, Option.some.injEq, SpecTiming.mk.injEq]
  rw [hc2, hc3]
  exact ⟨e1.symm, e2.symm, e3.symm, e4.symm⟩

/-- C1 witness: the spec example, clock 48 MHz and baud 500 kbit/s.  The code
returns segment1 82, segment2 11, prescaler 0, sync jump width 3, equal to the
spec algorithm values. -/
theorem compute_nbtp_matches_spec_witness :
    (48000000 + 500000 / 2 < 4294967296) ∧
      compute_nbtp 48000000 500000 = some ⟨82, 11, 0, 3⟩ ∧
      spec_compute 48000000 500000 = some (nbtpToSpec ⟨82, 11, 0, 3⟩) :=
  ⟨by decide, by decide,
    compute_nbtp_matches_spec 48000000 500000 (by decide) ⟨82, 11, 0, 3⟩
      (by decide) (by decide) (by decide)⟩

/-- C1 counterexample.  At `clock_hz = baud_rate = 48000000` the code succeeds
with one clock per bit: the spec algorithm yields `segment1_length =
round(1 / 1) - 2 = -1` and `segment2_length = -1`, while the returned 8- and
7-bit register fields hold the wrapped values 255 and 127, so the returned
parameters do not equal those of the spec algorithm. -/
theorem compute_nbtp_matches_spec_counterexample :
    compute_nbtp 48000000 48000000 = some ⟨255, 127, 0, 0⟩ ∧
      spec_compute 48000000 48000000 = some ⟨-1, -1, 0, 0⟩ ∧
      nbtpToSpec ⟨255, 127, 0, 0⟩ ≠ ⟨-1, -1, 0, 0⟩ := by decide

/-- C2 counterexample.  At `clock_hz = 4294967295`, `baud_rate = 1000` the
32-bit computation of `clocks_per_bit` wraps around: the smallest valid
divisor of the spec exceeds 32 (the spec requires failure), yet the code does
not take its failure branch. -/
theorem c2_counterexample :
    compute_nbtp 4294967295 1000 ≠ none ∧
      32 < spec_least_divisor (spec_clocks_to_sample 4294967295 1000)
        (spec_clocks_after_sample 4294967295 1000) := by decide

/-- C2 (amended): provided the 32-bit sum `clock_hz + baud_rate / 2` does not
overflow, `compute_nbtp` fails (returns `none`, producing no timing
parameters) exactly when the smallest positive divisor `d` with
`ceil(clocks_to_sample / d) <= 256` and `ceil(clocks_after_sample / d) <= 128`
exceeds 32. -/
theorem compute_nbtp_fails_iff_divisor_gt_32 (f b : Nat)
    (hno : f + b / 2 < 4294967296) :
    compute_nbtp f b = none ↔
      32 < spec_least_divisor (spec_clocks_to_sample f b)
        (spec_clocks_after_sample f b) := by
  rw [compute_nbtp_eq_none_iff]
  by_cases hsmall : clocks_per_bit f b ≤ 613566755
  · obtain ⟨h2, h3, h4⟩ := no_overflow_eq f b hno hsmall
    rw [h4]
    unfold spec_least_divisor
    constructor
    · intro h
      exact lt_of_lt_of_le h (le_max_right _ _)
    · intro h
      rcases lt_max_iff.mp h with h | h
      · omega
      · exact h
  · push_neg at hsmall
    have hbig := divisor_big f b (by omega)
    have hcpb := cpb_eq_spec f b hno
    constructor
    · intro _
      have hcts : 536870912 ≤ spec_clocks_to_sample f b := by
        unfold spec_clocks_to_sample rhu
        rw [Nat.le_div_iff_mul_le (by norm_num : 0 < 2 * 8)]
        have hc : 613566756 ≤ spec_clocks_per_bit f b := by omega
        omega
      unfold spec_least_divisor
      rw [lt_max_iff]
      right
      rw [lt_max_iff]
      left
      unfold ceilDiv
      omega
    · intro _
      exact hbig

/-- C3 (amended): whenever `compute_nbtp` succeeds on 32-bit inputs and the
segment subtractions do not underflow (`round(clocks_to_sample / divisor) >= 3`
and `round(clocks_after_sample / divisor) >= 2`), the returned parameters
satisfy `segment1_length >= 1`, `segment2_length >= 1` and
`0 <= sync_jump_width <= segment2_length + 1`. -/
theorem compute_nbtp_fields_in_range (f b : Nat)
    (hf : f < 4294967296) (hb : b < 4294967296)
    (r : CAN_NBTP) (hr : compute_nbtp f b = some r)
    (h1 : 3 ≤ rhu (spec_clocks_to_sample f b)
      (spec_least_divisor (spec_clocks_to_sample f b) (spec_clocks_after_sample f b)))
    (h2 : 2 ≤ rhu (spec_clocks_after_sample f b)
      (spec_least_divisor (spec_clocks_to_sample f b) (spec_clocks_after_sample f b))) :
    1 ≤ r.NTSEG1 ∧ 1 ≤ r.NTSEG2 ∧ 0 ≤ r.NSJW ∧ r.NSJW ≤ r.NTSEG2 + 1 := by
  by_cases hno : f + b / 2 < 4294967296
  · have hsome : ¬ 32 < divisor f b := by
      intro hgt
      rw [(compute_nbtp_eq_none_iff f b).mpr hgt] at hr
      exact Option.noConfusion hr
    have hsmall : clocks_per_bit f b ≤ 613566755 := by
      by_contra hbig
      push_neg at hbig
      exact hsome (divisor_big f b (by omega))
    obtain ⟨hc2, hc3, hc4⟩ := no_overflow_eq f b hno hsmall
    have hDpos := divisor_pos f b hno hsmall (by omega)
    have hsl := spec_least_eq_divisor f b hno hsmall hDpos
    rw [hsl] at h1 h2
    have hle1 : ceilDiv (spec_clocks_to_sample f b) 256 ≤ divisor f b := by
      rw [hc4]; exact le_max_left _ _
    have hle2 : ceilDiv (spec_clocks_after_sample f b) 128 ≤ divisor f b := by
      rw [hc4]; exact le_max_right _ _
    have hcts256 := (ceilDiv_le_iff _ _ _ (by norm_num : (0:Nat) < 256)).mp hle1
    have hcas128 := (ceilDiv_le_iff _ _ _ (by norm_num : (0:Nat) < 128)).mp hle2
    obtain ⟨e1, e2, e3, e4⟩ := compute_fields (spec_clocks_to_sample f b)
      (spec_clocks_after_sample f b) (divisor f b) hDpos (by omega) hcts256 hcas128
      (by omega) (by omega)
    have hmono := rhu_four_mul_le (spec_clocks_after_sample f b) (divisor f b) hDpos
    rw [Nat.mul_comm 4 (divisor f b)] at hmono
    unfold compute_nbtp at hr
    rw [if_neg hsome] at hr
    have hrr := Option.some.inj hr
    subst hrr
    refine ⟨?_, ?_, Nat.zero_le _, ?_⟩
    · show 1 ≤ sub32 (DIV_ROUND (clocks_to_sample f b) (divisor f b)) 2 % 256
      rw [hc2]
      omega
    · show 1 ≤ sub32 (DIV_ROUND (clocks_after_sample f b) (divisor f b)) 1 % 128
      rw [hc3]
      omega
    · show DIV_ROUND (clocks_after_sample f b) (mul32 (divisor f b) 4) % 128 ≤
        sub32 (DIV_ROUND (clocks_after_sample f b) (divisor f b)) 1 % 128 + 1
      rw [hc3]
      omega
  · push_neg at hno
    have hcpb0 : clocks_per_bit f b = 0 := by
      unfold clocks_per_bit DIV_ROUND
      have hmod : (f + b / 2) % 4294967296 = f + b / 2 - 4294967296 := by omega
      rw [hmod]
      apply Nat.div_eq_of_lt
      omega
    have hcts0 : clocks_to_sample f b = 0 := by
      unfold clocks_to_sample DIV_ROUND mul32
      rw [hcpb0]
    have hcas0 : clocks_after_sample f b = 0 := by
      unfold clocks_after_sample
      rw [hcpb0, hcts0]
      decide
    have hdiv0 : divisor f b = 0 := by
      unfold divisor
      rw [hcts0, hcas0]
      decide
    unfold compute_nbtp at hr
    rw [hcts0, hcas0, hdiv0, if_neg (by decide : ¬ 32 < 0)] at hr
    have hrr := Option.some.inj hr
    subst hrr
    exact ⟨by decide, by decide, Nat.zero_le _, by decide⟩

/-- C3 witness at clock 48 MHz, baud 500 kbit/s: the rounds are 84 and 12, the
returned fields 82, 11, 0, 3 satisfy all three range conditions. -/
theorem compute_nbtp_fields_in_range_witness :
    compute_nbtp 48000000 500000 = some ⟨82, 11, 0, 3⟩ ∧
      (1 ≤ (82:Nat) ∧ 1 ≤ (11:Nat) ∧ 0 ≤ (3:Nat) ∧ (3:Nat) ≤ 11 + 1) :=
  ⟨by decide,
    compute_nbtp_fields_in_range 48000000 500000 (by decide) (by decide)
      ⟨82, 11, 0, 3⟩ (by decide) (by decide) (by decide)⟩

/-- C3 counterexample.  At clock 48 MHz, baud 24 Mbit/s there are two clocks
per bit; the divisor 1 is valid (so the claim premise holds), yet the code
returns `segment1_length = 0`, violating `segment1_length >= 1`. -/
theorem compute_nbtp_fields_in_range_counterexample :
    validDivisor (spec_clocks_to_sample 48000000 24000000)
      (spec_clocks_after_sample 48000000 24000000) 1 ∧
      compute_nbtp 48000000 24000000 = some ⟨0, 127, 0, 0⟩ ∧
      ¬ 1 ≤ (0:Nat) := by decide

/-- C2 witness instantiation at the 48 MHz, 500 kbit example: no overflow,
and neither side of the equivalence holds (the configuration is achievable). -/
theorem compute_nbtp_fails_iff_divisor_gt_32_witness :
    (48000000 + 500000 / 2 < 4294967296) ∧
      (compute_nbtp 48000000 500000 = none ↔
        32 < spec_least_divisor (spec_clocks_to_sample 48000000 500000)
          (spec_clocks_after_sample 48000000 500000)) :=
  ⟨by decide, compute_nbtp_fails_iff_divisor_gt_32 48000000 500000 (by decide)⟩

/-! Controller model: critical sections, receive path, filters, transmit
path and activation, embedded from src/src/CANSAME5x.cpp. -/

/-- State of the interrupt-masking primitives (source lines 31-32): the
nesting counter `cpu_irq_critical_section_counter` (a 32-bit unsigned),
the saved byte `cpu_irq_prev_interrupt_state`, and whether interrupts are
currently enabled (PRIMASK clear). -/
structure IrqState where
  counter : Nat
  prevState : Nat
  irqOn : Bool
deriving DecidableEq

/-- Source lines 34-47, `cpu_irq_enter_critical`: on the outermost entry,
disable interrupts if they were enabled and remember which; then increment
the counter (wrapping as a 32-bit unsigned). -/
def cpu_irq_enter_critical (s : IrqState) : IrqState :=
  let s1 := if s.counter = 0 then
      (if s.irqOn then { s with irqOn := false, prevState := 1 }
       else { s with prevState := 0 })
    else s
  { s1 with counter := (s1.counter + 1) % 4294967296 }

/-- Source lines 49-64, `cpu_irq_leave_critical`: only acts when the counter
is positive; decrements, and re-enables interrupts when the counter reaches 0
and the saved state was enabled. -/
def cpu_irq_leave_critical (s : IrqState) : IrqState :=
  if 0 < s.counter then
    let s1 := { s with counter := s.counter - 1 }
    if s1.counter = 0 ∧ s1.prevState ≠ 0 then { s1 with irqOn := true } else s1
  else s

/-- One element of the standard-id filter table (`CanMramSidfe`): SFID1 and
SFID2 are 11-bit fields, SFEC a 3-bit element configuration, SFT a 2-bit
filter type. -/
structure CanMramSidfe where
  SFID1 : Nat
  SFID2 : Nat
  SFEC : Nat
  SFT : Nat
deriving DecidableEq

/-- One element of the extended-id filter table (`CanMramXidfe`): EFID1 and
EFID2 are 29-bit fields, EFEC a 3-bit element configuration, EFT a 2-bit
filter type. -/
structure CanMramXidfe where
  EFID1 : Nat
  EFEC : Nat
  EFID2 : Nat
  EFT : Nat
deriving DecidableEq

/-- Device-header constant: store-in-FIFO-0-if-match element configuration. -/
def CAN_SIDFE_0_SFEC_STF0M_Val : Nat := 1
/-- Device-header constant: reject-if-match element configuration. -/
def CAN_SIDFE_0_SFEC_REJECT_Val : Nat := 3
/-- Device-header constant: classic id-and-mask filter type. -/
def CAN_SIDFE_0_SFT_CLASSIC_Val : Nat := 2
/-- Device-header constant: store-in-FIFO-0-if-match, extended table. -/
def CAN_XIDFE_0_EFEC_STF0M_Val : Nat := 1
/-- Device-header constant: reject-if-match, extended table. -/
def CAN_XIDFE_0_EFEC_REJECT_Val : Nat := 3
/-- Device-header constant: classic id-and-mask filter type, extended table. -/
def CAN_XIDFE_1_EFT_CLASSIC_Val : Nat := 2

/-- The two one-element filter tables of `_canSAME5x_state` (source lines
89-90). -/
structure FilterState where
  standard_rx_filter : CanMramSidfe
  extended_rx_filter : CanMramXidfe
deriving DecidableEq

/-- Source lines 347-361, `CANSAME5x::filter(int id, int mask)`: write an
accept-to-FIFO-0 classic filter with the given id and mask into the standard
table, and a reject filter with id 0 and mask 0 into the extended table. -/
def filter (id mask : Nat) (_s : FilterState) : FilterState :=
  { standard_rx_filter :=
      { SFID1 := id % 2048
        SFID2 := mask % 2048
        SFEC := CAN_SIDFE_0_SFEC_STF0M_Val
        SFT := CAN_SIDFE_0_SFT_CLASSIC_Val }
    extended_rx_filter :=
      { EFID1 := 0
        EFEC := CAN_XIDFE_0_EFEC_REJECT_Val
        EFID2 := 0
        EFT := CAN_XIDFE_1_EFT_CLASSIC_Val } }

/-- Source lines 363-376, `CANSAME5x::filterExtended(long id, long mask)`:
write a reject filter into the standard table, and write the given id and
mask into the extended table with the REJECT element configuration (the
source comment reads `reject all extended messages` there). -/
def filterExtended (id mask : Nat) (_s : FilterState) : FilterState :=
  { standard_rx_filter :=
      { SFID1 := 0
        SFID2 := 0
        SFEC := CAN_SIDFE_0_SFEC_REJECT_Val
        SFT := CAN_SIDFE_0_SFT_CLASSIC_Val }
    extended_rx_filter :=
      { EFID1 := id % 536870912
        EFEC := CAN_XIDFE_0_EFEC_REJECT_Val
        EFID2 := mask % 536870912
        EFT := CAN_XIDFE_1_EFT_CLASSIC_Val } }

/-- Modelled from the spec (section 3): a filter slot holds a match id, a
mask and a disposition, accept-to-FIFO vs reject.  An extended-addressed
frame id is accepted to the FIFO iff the element configuration is
store-to-FIFO-0 and the id agrees with the filter id on the masked bits. -/
def extFilterAccepts (flt : CanMramXidfe) (fid : Nat) : Bool :=
  (flt.EFEC == CAN_XIDFE_0_EFEC_STF0M_Val) &&
    (fid % 536870912 &&& flt.EFID2 == flt.EFID1 &&& flt.EFID2)

/-- Modelled from the spec (section 3): acceptance of a standard-addressed
frame id by the standard filter slot. -/
def stdFilterAccepts (flt : CanMramSidfe) (fid : Nat) : Bool :=
  (flt.SFEC == CAN_SIDFE_0_SFEC_STF0M_Val) &&
    (fid % 2048 &&& flt.SFID2 == flt.SFID1 &&& flt.SFID2)

/-- A zeroed filter state, as left by the `memset` in `begin`. -/
def filter_state0 : FilterState := ⟨⟨0, 0, 0, 0⟩, ⟨0, 0, 0, 0⟩⟩

/-- One receive-FIFO element (`_canSAME5x_rx_fifo`, source lines 78-83): the
XTD, RTR and 29-bit ID fields of rxf0, the 4-bit DLC field of rxf1, and the
8 payload bytes. -/
structure RxSlot where
  XTD : Bool
  RTR : Bool
  ID : Nat
  DLC : Nat
  data : List Nat

/-- The state read and written by `parsePacket`: the hardware FIFO-status
fields F0FL (fill level) and F0GI (get index), the FIFO memory, the
acknowledge register F0AI, the interrupt-masking state, and the driver-side
receive fields of the controller base class. -/
structure CanState where
  F0FL : Nat
  F0GI : Nat
  rx_fifo : Nat → RxSlot
  F0AI : Nat
  irq : IrqState
  rxExtended : Bool
  rxRtr : Bool
  rxDlc : Nat
  rxId : Nat
  rxLength : Nat
  rxData : List Nat
  rxIndex : Nat

/-- Source lines 291-326, `CANSAME5x::parsePacket`.  Enters the critical
section; when the fill level is zero returns 0 at once - in the source the
`cpu_irq_leave_critical()` call on that path stands after the `return 0`
statement and is dead code, so the model does not execute it either.
Otherwise copies out the head frame fields (id right-shifted by 18 when not
extended, length forced to 0 and no payload copy for remote frames, where the
C code would copy `_rxDlc` bytes - more than the 8-byte slot when DLC
exceeds 8), acknowledges the index, leaves the critical section, and returns
the raw DLC field. -/
def parsePacket (s : CanState) : CanState × Nat :=
  let s0 := { s with irq := cpu_irq_enter_critical s.irq }
  if s0.F0FL = 0 then
    (s0, 0)
  else
    let index := s0.F0GI
    let m := s0.rx_fifo index
    let dlc := m.DLC % 16
    let idField := m.ID % 536870912
    let s1 := { s0 with
      rxExtended := m.XTD
      rxRtr := m.RTR
      rxDlc := dlc
      rxId := if m.XTD then idField else idField / 262144 }
    let s2 := if m.RTR then { s1 with rxLength := 0 }
      else { s1 with rxLength := dlc, rxData := m.data.take dlc ++ s1.rxData.drop dlc }
    let s3 := { s2 with rxIndex := 0, F0AI := index }
    ({ s3 with irq := cpu_irq_leave_critical s3.irq }, dlc)

/-- An all-zero FIFO element. -/
def rx_slot0 : RxSlot := ⟨false, false, 0, 0, [0, 0, 0, 0, 0, 0, 0, 0]⟩

/-- A state with an empty receive FIFO, interrupts enabled, no critical
section active. -/
def can_state_empty : CanState :=
  { F0FL := 0, F0GI := 0, rx_fifo := fun _ => rx_slot0, F0AI := 0
    irq := { counter := 0, prevState := 0, irqOn := true }
    rxExtended := false, rxRtr := false, rxDlc := 0, rxId := 0
    rxLength := 0, rxData := [0, 0, 0, 0, 0, 0, 0, 0], rxIndex := 0 }

/-- A remote-request frame with DLC 4 at the FIFO head. -/
def rx_slot_rtr : RxSlot := ⟨false, true, 300, 4, [1, 2, 3, 4, 5, 6, 7, 8]⟩

/-- A state whose FIFO holds one remote-request frame with DLC 4. -/
def can_state_rtr : CanState :=
  { F0FL := 1, F0GI := 0, rx_fifo := fun _ => rx_slot_rtr, F0AI := 0
    irq := { counter := 0, prevState := 0, irqOn := true }
    rxExtended := false, rxRtr := false, rxDlc := 0, rxId := 0
    rxLength := 0, rxData := [9, 9, 9, 9, 9, 9, 9, 9], rxIndex := 0 }

/-- A data frame whose DLC field holds 15 at the FIFO head. -/
def rx_slot_dlc15 : RxSlot := ⟨false, false, 5, 15, [1, 2, 3, 4, 5, 6, 7, 8]⟩

/-- A state whose FIFO holds one data frame with DLC 15. -/
def can_state_dlc15 : CanState :=
  { F0FL := 1, F0GI := 0, rx_fifo := fun _ => rx_slot_dlc15, F0AI := 0
    irq := { counter := 0, prevState := 0, irqOn := true }
    rxExtended := false, rxRtr := false, rxDlc := 0, rxId := 0
    rxLength := 0, rxData := [9, 9, 9, 9, 9, 9, 9, 9], rxIndex := 0 }

/-- C10: calling `cpu_irq_leave_critical` with the nesting counter at zero is
a no-op: the counter does not underflow and the interrupt-enable state is
unchanged. -/
theorem leave_critical_at_zero_is_noop (s : IrqState) (h : s.counter = 0) :
    cpu_irq_leave_critical s = s := by
  unfold cpu_irq_leave_critical
  rw [if_neg (by omega)]

/-- C10 witness: concrete unbalanced leave with interrupts disabled and the
saved state marked enabled; nothing changes. -/
theorem leave_critical_at_zero_is_noop_witness :
    ({ counter := 0, prevState := 1, irqOn := false } : IrqState).counter = 0 ∧
      cpu_irq_leave_critical { counter := 0, prevState := 1, irqOn := false } =
        { counter := 0, prevState := 1, irqOn := false } :=
  ⟨rfl, leave_critical_at_zero_is_noop _ rfl⟩

/-- C5: evaluation of `parsePacket` on an empty FIFO with no critical section
active and interrupts enabled.  The call returns 0 but leaves the nesting
counter at 1 and interrupts disabled, because the source puts the
`cpu_irq_leave_critical()` of the empty path after the `return 0` statement
(dead code); the claim asks for the counter to return to its entry value 0. -/
theorem parsePacket_empty_leaves_interrupts_disabled :
    can_state_empty.irq.counter = 0 ∧ can_state_empty.irq.irqOn = true ∧
      (parsePacket can_state_empty).2 = 0 ∧
      (parsePacket can_state_empty).1.irq.counter = 1 ∧
      (parsePacket can_state_empty).1.irq.irqOn = false :=
  ⟨rfl, rfl, rfl, rfl, rfl⟩

/-- C8 (amended): `parsePacket` returns 0 when the FIFO fill count is 0, and
otherwise the raw 4-bit DLC field of the dequeued frame, a value from 0 to 15
(values 9 to 15 occur for frames whose DLC field exceeds 8). -/
theorem parsePacket_returns_raw_dlc (s : CanState) :
    (s.F0FL = 0 → (parsePacket s).2 = 0) ∧
      (s.F0FL ≠ 0 →
        (parsePacket s).2 = (s.rx_fifo s.F0GI).DLC % 16 ∧ (parsePacket s).2 ≤ 15) := by
  unfold parsePacket
  constructor
  · intro h
    simp [h]
  · intro h
    simp [h]
    omega

/-- C8 witness: on the empty state the return value is 0; on a state holding
a frame it is the raw DLC of the head frame, at most 15. -/
theorem parsePacket_returns_raw_dlc_witness :
    (parsePacket can_state_empty).2 = 0 ∧
      ((parsePacket can_state_rtr).2 =
          (can_state_rtr.rx_fifo can_state_rtr.F0GI).DLC % 16 ∧
        (parsePacket can_state_rtr).2 ≤ 15) :=
  ⟨(parsePacket_returns_raw_dlc can_state_empty).1 rfl,
    (parsePacket_returns_raw_dlc can_state_rtr).2 (by decide)⟩

/-- C8 counterexample: a FIFO holding a data frame whose 4-bit DLC field is
15 makes `parsePacket` return 15, which is neither 0 nor in 1..8. -/
theorem parsePacket_returns_raw_dlc_counterexample :
    (parsePacket can_state_dlc15).2 = 15 ∧
      ¬((parsePacket can_state_dlc15).2 = 0 ∨
        (1 ≤ (parsePacket can_state_dlc15).2 ∧ (parsePacket can_state_dlc15).2 ≤ 8)) :=
  ⟨rfl, by decide⟩

/-- C9: for a remote-request frame at the FIFO head, `parsePacket` stores
receive length 0, copies no payload bytes, and returns the raw DLC code of
the frame. -/
theorem parsePacket_rtr_returns_dlc (s : CanState) (h : s.F0FL ≠ 0)
    (hrtr : (s.rx_fifo s.F0GI).RTR = true) :
    (parsePacket s).1.rxLength = 0 ∧
      (parsePacket s).1.rxData = s.rxData ∧
      (parsePacket s).2 = (s.rx_fifo s.F0GI).DLC % 16 := by
  unfold parsePacket
  simp [h, hrtr]

/-- C9 witness: a remote-request frame with DLC 4; the stored length is 0 and
no bytes are copied, yet the call returns 4, exceeding the zero bytes made
available. -/
theorem parsePacket_rtr_returns_dlc_witness :
    can_state_rtr.F0FL ≠ 0 ∧
      (can_state_rtr.rx_fifo can_state_rtr.F0GI).RTR = true ∧
      ((parsePacket can_state_rtr).1.rxLength = 0 ∧
        (parsePacket can_state_rtr).1.rxData = can_state_rtr.rxData ∧
        (parsePacket can_state_rtr).2 =
          (can_state_rtr.rx_fifo can_state_rtr.F0GI).DLC % 16) ∧
      (parsePacket can_state_rtr).2 = 4 :=
  ⟨by decide, rfl, parsePacket_rtr_returns_dlc can_state_rtr (by decide) rfl, rfl⟩

/-- C4: `filterExtended` writes the REJECT element configuration (3) into the
extended filter element while still writing the requested id and mask into it,
so a matching extended frame is not accepted to the FIFO; `filter`, by
contrast, writes the accept-to-FIFO-0 configuration (1) into the standard
element, which accepts a matching standard frame.  The mirror symmetry the
spec describes is broken: after `filterExtended` everything is rejected. -/
theorem filterExtended_rejects_matching_extended :
    (filterExtended 291 536870911 filter_state0).extended_rx_filter.EFEC =
        CAN_XIDFE_0_EFEC_REJECT_Val ∧
      (filterExtended 291 536870911 filter_state0).extended_rx_filter.EFID1 = 291 ∧
      extFilterAccepts
        ((filterExtended 291 536870911 filter_state0).extended_rx_filter) 291 = false ∧
      (filter 291 2047 filter_state0).standard_rx_filter.SFEC =
        CAN_SIDFE_0_SFEC_STF0M_Val ∧
      stdFilterAccepts ((filter 291 2047 filter_state0).standard_rx_filter) 291 = true := by
  decide

/-- The transmit-slot contents written by `endPacket` (`_canSAME5x_tx_buf`,
source lines 72-76): txb0 fields ESI, XTD, RTR and the 29-bit ID; txb1 fields
MM, EFC, FDF, BRS and the 4-bit DLC; and the 8 payload bytes. -/
structure TxBuf where
  ESI : Bool
  XTD : Bool
  RTR : Bool
  ID : Nat
  MM : Nat
  EFC : Nat
  FDF : Nat
  BRS : Nat
  DLC : Nat
  data : List Nat

/-- The driver-side frame being sent (fields of the controller base class
consumed by `endPacket`). -/
structure TxFrame where
  txExtended : Bool
  txRtr : Bool
  txId : Nat
  txLength : Nat
  txData : List Nat

/-- Source lines 281-286: the bounded completion poll.  `txbto i` is the
value of the volatile bit `hw->TXBTO.reg & 1` observed at iteration `i`; the
argument counts remaining iterations, starting at 8000.  Finding the bit set
returns `true` (the integer 1); exhausting the bound falls through to
`return 1`. -/
def txPoll (txbto : Nat → Bool) : Nat → Nat
  | 0 => 1
  | k + 1 => if txbto (8000 - (k + 1)) then 1 else txPoll txbto k

/-- Source lines 250-289, `CANSAME5x::endPacket`.  `baseOk` is the result of
the base-class `CANControllerClass::endPacket()` call (its body lives outside
this repository snapshot; a failure returns 0 at once).  Otherwise the
transmit slot is populated (standard ids are shifted left by 18 into the
29-bit field, payload copied only for non-remote frames), the add request
TXBAR is written (second component), and the bounded poll result is
returned. -/
def endPacket (baseOk : Bool) (fr : TxFrame) (buf : TxBuf) (txbto : Nat → Bool) :
    TxBuf × Bool × Nat :=
  if !baseOk then (buf, false, 0)
  else
    let b1 : TxBuf :=
      { ESI := false
        XTD := fr.txExtended
        RTR := fr.txRtr
        ID := (if fr.txExtended then fr.txId else fr.txId * 262144) % 536870912
        MM := 0
        EFC := 0
        FDF := 0
        BRS := 0
        DLC := fr.txLength % 16
        data := if fr.txRtr then buf.data
          else fr.txData.take fr.txLength ++ buf.data.drop fr.txLength }
    (b1, true, txPoll txbto 8000)

lemma txPoll_eq_one (txbto : Nat → Bool) (n : Nat) : txPoll txbto n = 1 := by
  induction n with
  | zero => rfl
  | succ k ih =>
    unfold txPoll
    split
    · rfl
    · exact ih

/-- C6: once the base-class check passes, `endPacket` reports success (1) for
every frame and every observed behavior of the transmission-complete
indicator: the early path returns `true` when the indicator sets, and the
fallthrough after all 8000 polls returns 1 as well, so a transmission that
never completes is still reported as success. -/
theorem endPacket_always_reports_success (fr : TxFrame) (buf : TxBuf)
    (txbto : Nat → Bool) : (endPacket true fr buf txbto).2.2 = 1 := by
  unfold endPacket
  simp [txPoll_eq_one]

/-- The hardware and driver effects performed by a successful `begin`, one
constructor per source block (lines 139-233), in program order. -/
inductive BeginEffect where
  | bindHw
  | memsetState
  | pinFunction (pin : Int)
  | clockEnable
  | configEnter
  | txesc
  | txbc
  | rxesc
  | rxf0c
  | gfc
  | defaultFilters
  | sidfc
  | xidfc
  | nbtpWrite (v : CAN_NBTP)
  | configExit
  | registerInstanceAt (idx : Nat)
deriving DecidableEq

/-- Modelled from the spec: the board clock constant `VARIANT_GCLK1_FREQ`
read by `compute_nbtp` through `can_frequency` (source line 99; the constant
itself is defined in the board support package outside this repository, and
the spec example fixes it at 48 MHz). -/
def can_frequency : Nat := 48000000

/-- Source lines 128-236, `CANSAME5x::begin(long baudrate)`, as a result code
paired with the ordered trace of effects on hardware and driver state.  The
two failure paths (`_tx == -1`, and `compute_nbtp` returning false) return 0
before any effect is performed. -/
def begin (tx rx : Int) (baudrate : Nat) : Nat × List BeginEffect :=
  if tx = -1 then (0, [])
  else
    match compute_nbtp can_frequency baudrate with
    | none => (0, [])
    | some nbtp =>
      (1, [BeginEffect.bindHw, BeginEffect.memsetState, BeginEffect.pinFunction tx,
        BeginEffect.pinFunction rx, BeginEffect.clockEnable, BeginEffect.configEnter,
        BeginEffect.txesc, BeginEffect.txbc, BeginEffect.rxesc, BeginEffect.rxf0c,
        BeginEffect.gfc, BeginEffect.defaultFilters, BeginEffect.sidfc,
        BeginEffect.xidfc, BeginEffect.nbtpWrite nbtp, BeginEffect.configExit,
        BeginEffect.registerInstanceAt 1])

/-- C7: `begin` returns 0 with an empty effect trace - no hardware register
programmed, no driver or frame-buffer state modified - both when no transmit
pin is assigned (`_tx == -1`) and when the bit-timing computation reports the
baud rate unachievable. -/
theorem begin_failure_paths_touch_nothing (tx rx : Int) (baudrate : Nat) :
    (tx = -1 → begin tx rx baudrate = (0, [])) ∧
      (compute_nbtp can_frequency baudrate = none → begin tx rx baudrate = (0, [])) := by
  constructor
  · intro h
    unfold begin
    rw [if_pos h]
  · intro h
    unfold begin
    split
    · rfl
    · rw [h]

/-- C7 witness: the disabled channel (`_tx = -1`) at an achievable baud rate,
and an enabled channel at baud 100 (unachievable at 48 MHz, the divisor would
be 1641): both calls return 0 with no effects. -/
theorem begin_failure_paths_touch_nothing_witness :
    ((-1 : Int) = -1 ∧ begin (-1) 10 500000 = (0, [])) ∧
      (compute_nbtp can_frequency 100 = none ∧ begin 22 23 100 = (0, [])) :=
  ⟨⟨rfl, (begin_failure_paths_touch_nothing (-1) 10 500000).1 rfl⟩,
    ⟨by decide, (begin_failure_paths_touch_nothing 22 23 100).2 (by decide)⟩⟩
